import Mathlib

/-!
Shallow embedding of the Backblaze B2 Event Broker (src/index.js):
the subscription registry (`EventSubscriptions` durable object methods)
and the delivery engine (`fetchWithRetry`, `handleEventNotifications`).

JavaScript objects are modelled as association lists from `String` keys,
kept in insertion order, mirroring `Object.hasOwn`, property read,
property assignment, `delete obj[k]` and `Object.keys(obj).length`.
Error messages carried by thrown errors are dropped; only the error kind
(`NotFoundError`, plain validation `Error`, `TypeError`) is retained,
which is all the claims discriminate on.
-/

namespace B2Broker

/-- `Object.hasOwn(obj, k)`. -/
def hasOwn : List (String × α) → String → Bool
  | [], _ => false
  | (k', _) :: rest, k => k' == k || hasOwn rest k

/-- Property read `obj[k]`: `none` models `undefined`. -/
def getProp : List (String × α) → String → Option α
  | [], _ => none
  | (k', v') :: rest, k => if k' == k then some v' else getProp rest k

/-- Property assignment `obj[k] = v`: overwrite in place, else append. -/
def setProp (l : List (String × α)) (k : String) (v : α) : List (String × α) :=
  match l with
  | [] => [(k, v)]
  | (k', v') :: rest => if k' == k then (k, v) :: rest else (k', v') :: setProp rest k v

/-- `delete obj[k]`. -/
def delProp (l : List (String × α)) (k : String) : List (String × α) :=
  match l with
  | [] => []
  | (k', v') :: rest => if k' == k then rest else (k', v') :: delProp rest k

/-- JavaScript object keys are unique; association lists produced by the
embedding keep this invariant. -/
def noDupKeys : List (String × α) → Bool
  | [] => true
  | (k, _) :: rest => !hasOwn rest k && noDupKeys rest

/-- The error kinds thrown by the registry code: `NotFoundError`, the plain
`Error` thrown by the validation helpers (`checkUUID`, `checkProperty`, the
url checks) — the spec's `ValidationError` — and the JavaScript `TypeError`
raised by a property assignment on `undefined`. -/
inductive RegError where
  | notFoundError
  | validationError
  | typeError
deriving DecidableEq, Repr

/-- A stored subscription value `{ url }` (createSubscription persists
exactly this shape). -/
structure Subscription where
  url : String
deriving DecidableEq, Repr

/-- Rule: map subscription id → Subscription. -/
abbrev Rule := List (String × Subscription)

/-- BucketRecord: map rule name → Rule. -/
abbrev BucketRecord := List (String × Rule)

/-- The durable store: bucket name → BucketRecord. -/
abbrev Store := List (String × BucketRecord)

/-- An incoming subscription object in a `setSubscriptions` payload: only
its `url` property is inspected (`none` models an absent property). -/
structure InSubscription where
  url : Option String
deriving DecidableEq, Repr

/-- One hex digit of the `checkUUID` regular expression (`/i` flag). -/
def isHex (c : Char) : Bool :=
  c.isDigit ||
  (Nat.ble 97 c.toNat && Nat.ble c.toNat 102) ||
  (Nat.ble 65 c.toNat && Nat.ble c.toNat 70)

/-- Consume exactly `n` hex digits. -/
def hexRun : Nat → List Char → Option (List Char)
  | 0, cs => some cs
  | _ + 1, [] => none
  | n + 1, c :: cs => if isHex c then hexRun n cs else none

/-- Consume one literal character. -/
def charIs (c : Char) : List Char → Option (List Char)
  | c' :: cs => if c' == c then some cs else none
  | [] => none

/-- Consume the UUID variant digit `[89AB]` (case-insensitive). -/
def variantThen : List Char → Option (List Char)
  | c :: cs =>
    if c == '8' || c == '9' || c == 'A' || c == 'B' || c == 'a' || c == 'b'
    then some cs else none
  | [] => none

/-- `checkUUID`'s regular expression
`/^[0-9A-F]\x7b8\x7d-[0-9A-F]\x7b4\x7d-4[0-9A-F]\x7b3\x7d-[89AB][0-9A-F]\x7b3\x7d-[0-9A-F]\x7b12\x7d$/i`
as a decidable predicate. -/
def matchesUUIDv4 (s : String) : Bool :=
  ((((((((((hexRun 8 s.data).bind (charIs '-')).bind (hexRun 4)).bind
    (charIs '-')).bind (charIs '4')).bind (hexRun 3)).bind
    (charIs '-')).bind variantThen).bind (hexRun 3)).bind
    (charIs '-')).bind (hexRun 12) == some []

/-- `EventSubscriptions.createSubscription`. `canParse` abstracts the
platform's `URL.canParse`; `newId` abstracts the `uuidv4()` call (the id
generated by the external uuid library); `subUrl` is the payload's `url`
property (`none` when absent). Returns the reply `{ id }` and the new store. -/
def createSubscription (canParse : String → Bool) (store : Store)
    (bucketName ruleName : String) (subUrl : Option String) (newId : String) :
    Except RegError (String × Store) :=
  match subUrl with
  | none => .error .validationError
  | some url =>
    if url.isEmpty then .error .validationError
    else if !canParse url then .error .validationError
    else
      let rules := (getProp store bucketName).getD []
      let subscriptions := (getProp rules ruleName).getD []
      let subscriptions' := setProp subscriptions newId ⟨url⟩
      let rules' := setProp rules ruleName subscriptions'
      .ok (newId, setProp store bucketName rules')

/-- The four result shapes of `getSubscriptions`. -/
inductive GetResult where
  | allBuckets (m : Store)
  | bucketRules (r : BucketRecord)
  | ruleSubs (s : Rule)
  | singleSub (s : Subscription)
deriving DecidableEq, Repr

/-- JavaScript falsiness of an optional path segment: `undefined` or `""`. -/
def falsy : Option String → Bool
  | none => true
  | some s => s.isEmpty

/-- `EventSubscriptions.getSubscriptions`: hierarchical read, no store
mutation (it is a pure function of the store). The `Object.hasOwn` checks
followed by a property read in the source are rendered as a single match
on the property lookup. -/
def getSubscriptions (store : Store) (bucketName ruleName id : Option String) :
    Except RegError GetResult :=
  if falsy bucketName then .ok (.allBuckets store)
  else
    match getProp store (bucketName.getD "") with
    | none => .error .notFoundError
    | some rules =>
      if falsy ruleName then .ok (.bucketRules rules)
      else
        match getProp rules (ruleName.getD "") with
        | none => .error .notFoundError
        | some subscriptions =>
          if falsy id then .ok (.ruleSubs subscriptions)
          else
            match getProp subscriptions (id.getD "") with
            | none => .error .notFoundError
            | some s => .ok (.singleSub s)

/-- The validation loop of `setSubscriptions`: `checkUUID(id)` then
`checkProperty(subscription, 'subscription', 'url', id)` for each entry,
in order; both throw a plain `Error` (the spec's ValidationError). -/
def validateEntries : List (String × InSubscription) → Except RegError Unit
  | [] => .ok ()
  | (id, sub) :: rest =>
    if !matchesUUIDv4 id then .error .validationError
    else if sub.url.isNone then .error .validationError
    else validateEntries rest

/-- `EventSubscriptions.setSubscriptions`: validate every entry, then
`rules = storage.get(bucketName); rules[ruleName] = subscriptions; put`.
When the bucket has no record, `rules` is `undefined` and the assignment
`rules[ruleName] = …` throws a `TypeError`. -/
def setSubscriptions (store : Store) (bucketName ruleName : String)
    (subscriptions : List (String × InSubscription)) : Except RegError Store :=
  match validateEntries subscriptions with
  | .error e => .error e
  | .ok _ =>
    match getProp store bucketName with
    | none => .error .typeError
    | some rules =>
      .ok (setProp store bucketName
        (setProp rules ruleName
          (subscriptions.map (fun p => (p.1, ⟨p.2.url.getD ""⟩)))))

/-- `EventSubscriptions.deleteSubscription`. -/
def deleteSubscription (store : Store) (bucketName ruleName id : String) :
    Except RegError (Subscription × Store) :=
  match getProp store bucketName with
  | none => .error .notFoundError
  | some rules =>
    match getProp rules ruleName with
    | none => .error .notFoundError
    | some subscriptions =>
      match getProp subscriptions id with
      | none => .error .notFoundError
      | some deleted =>
        let subscriptions' := delProp subscriptions id
        let rules' :=
          if subscriptions'.length == 0 then delProp rules ruleName
          else setProp rules ruleName subscriptions'
        let store' :=
          if rules'.length > 0 then setProp store bucketName rules'
          else delProp store bucketName
        .ok (deleted, store')

/-- The full hierarchical lookup bucket → rule → id. -/
def lookupSub (store : Store) (bucketName ruleName id : String) :
    Option Subscription :=
  (getProp store bucketName).bind fun rules =>
    (getProp rules ruleName).bind fun subscriptions =>
      getProp subscriptions id

/-- The spec's persistence invariant: no empty BucketRecord and no empty
Rule anywhere in the store. -/
def storeInvariant (store : Store) : Bool :=
  store.all fun p =>
    !p.2.isEmpty && p.2.all fun q => !q.2.isEmpty

/-- Well-formedness of a store as produced by JavaScript objects:
unique keys at every level. -/
def wfStore (store : Store) : Bool :=
  noDupKeys store &&
    store.all fun p => noDupKeys p.2 && p.2.all fun q => noDupKeys q.2

/-! ## Retry loop (`fetchWithRetry`) -/

/-- Outcome of one `fetch`: `some status` is a response with that HTTP
status, `none` is a network error (the `catch` branch). -/
abbrev FetchOutcome := Option Nat

/-- `response?.ok`: a response whose status lies in 200..299. -/
def responseOk : FetchOutcome → Bool
  | some s => Nat.ble 200 s && Nat.blt s 300
  | none => false

/-- Observable behaviour of one `fetchWithRetry` call: how many `fetch`
attempts ran, the argument of each `sleep` performed (in order), and
`some i` when attempt `i` returned ok (the function returned), `none`
when the loop ended and the function threw. -/
structure FetchTrace where
  attempts : Nat
  sleeps : List Nat
  success : Option Nat
deriving DecidableEq, Repr

/-- The `for (let i = 0; i < maxFailureCount; i++)` body of
`fetchWithRetry`, with the remaining iteration count made explicit:
attempt, return on ok, otherwise `sleep(delay)` and
`delay = (delay === 0) ? 1000 : delay * 2`. -/
def fetchLoop (resp : Nat → FetchOutcome) :
    Nat → Nat → Nat → FetchTrace
  | 0, _, _ => { attempts := 0, sleeps := [], success := none }
  | remaining + 1, i, delay =>
    if responseOk (resp i) then
      { attempts := 1, sleeps := [], success := some i }
    else
      let rest := fetchLoop resp remaining (i + 1)
        (if delay == 0 then 1000 else delay * 2)
      { attempts := rest.attempts + 1, sleeps := delay :: rest.sleeps,
        success := rest.success }

/-- `maxFailureCount` as computed by `handleEventNotifications`:
`Object.hasOwn(env, 'MAX_FAILURE_COUNT') ? parseInt(env.MAX_FAILURE_COUNT, 10)
: DEFAULT_MAX_FAILURE_COUNT`. The outer `none` models an unset variable;
the inner `none` models `parseInt` returning `NaN`. -/
def effectiveMaxFailureCount (envVar : Option (Option Int)) : Option Int :=
  match envVar with
  | none => some 5
  | some v => v

/-- Number of iterations `for (let i = 0; i < maxFailureCount; i++)` runs:
every comparison with `NaN` is false, and a non-positive bound also gives
zero iterations. -/
def loopIterations : Option Int → Nat
  | none => 0
  | some n => n.toNat

/-- `fetchWithRetry(resource, options, maxFailureCount)`, with the fetch
outcomes supplied per attempt index; `delay` starts at 0. -/
def fetchWithRetry (resp : Nat → FetchOutcome) (maxFailureCount : Option Int) :
    FetchTrace :=
  fetchLoop resp (loopIterations maxFailureCount) 0 0

/-- Inter-attempt delays as the spec words them: the wait after attempt
`j + 1` is 0 for `j = 0` and `1000 * 2 ^ (j - 1)` thereafter. -/
def interDelays (n : Nat) : List Nat :=
  (List.range n).map fun j => if j = 0 then 0 else 1000 * 2 ^ (j - 1)

/-! ## Delivery engine (`handleEventNotifications`) -/

/-- One event of an incoming batch (only the fields the engine reads). -/
structure EngineEvent where
  bucketName : String
  matchedRuleName : String
deriving DecidableEq, Repr

/-- Outcome of the `stub.getSubscriptions(event.bucketName,
event.matchedRuleName)` call: the subscription map, a `NotFoundError`,
or any other failure. -/
inductive LookupOutcome where
  | found (subs : Rule)
  | notFoundErr
  | otherError
deriving DecidableEq, Repr

/-- Observable actions of the engine, in program order: one lookup per
event processed, the HTTP attempts of each subscriber's retried delivery,
and each `stub.deleteSubscription` call issued. -/
inductive EngAction where
  | lookup (bucket rule : String)
  | attempt (bucket rule id : String) (k : Nat)
  | deleteCall (bucket rule id : String)
deriving DecidableEq, Repr

/-- Ids of the subscribers whose delivery settled rejected (retry budget
exhausted), in `sent` order. -/
def rejectedIds (resp : String → Nat → FetchOutcome)
    (maxFailureCount : Option Int) (subs : Rule) : List String :=
  (subs.filter fun p => (fetchWithRetry (resp p.1) maxFailureCount).success.isNone).map
    (·.1)

/-- The loop over settled outcomes: `await stub.deleteSubscription(…)` for
each rejected subscriber, in order. The call is not guarded by a local
try/catch: a throwing delete (modelled by `deleteThrows id = true`)
escapes to the outer catch of `handleEventNotifications`, which logs it
and ends the whole batch (second component `false` = batch aborted). -/
def deleteLoop (deleteThrows : String → Bool) (bucket rule : String) :
    List String → List EngAction × Bool
  | [] => ([], true)
  | id :: rest =>
    if deleteThrows id then ([.deleteCall bucket rule id], false)
    else
      let next := deleteLoop deleteThrows bucket rule rest
      (.deleteCall bucket rule id :: next.1, next.2)

/-- Processing of one event: look up subscribers (a `NotFoundError` means
an empty set; any other error logs and returns, aborting the batch), start
one retried delivery per subscriber, wait for all to settle, then delete
the rejected ones. Returns the actions performed and whether the engine
continues with the next event. -/
def runEvent (resp : String → Nat → FetchOutcome) (maxFailureCount : Option Int)
    (deleteThrows : String → Bool) (ev : EngineEvent) (lk : LookupOutcome) :
    List EngAction × Bool :=
  match lk with
  | .otherError => ([.lookup ev.bucketName ev.matchedRuleName], false)
  | .notFoundErr => ([.lookup ev.bucketName ev.matchedRuleName], true)
  | .found subs =>
    let attemptActs : List EngAction :=
      (subs.map fun p =>
        (List.range (fetchWithRetry (resp p.1) maxFailureCount).attempts).map
          fun k => EngAction.attempt ev.bucketName ev.matchedRuleName p.1 k).flatten
    let dels := deleteLoop deleteThrows ev.bucketName ev.matchedRuleName
      (rejectedIds resp maxFailureCount subs)
    (.lookup ev.bucketName ev.matchedRuleName :: attemptActs ++ dels.1, dels.2)

/-- The batch loop of `handleEventNotifications`: events processed
sequentially, stopping as soon as one event's processing aborts; the stub
call outcomes are supplied per event index by the oracles `lookups` and
`deleteThrows`. -/
def runBatch (maxFailureCount : Option Int)
    (resp : Nat → String → Nat → FetchOutcome)
    (deleteThrows : Nat → String → Bool) (lookups : Nat → LookupOutcome) :
    List EngineEvent → Nat → List EngAction
  | [], _ => []
  | ev :: rest, e =>
    let step := runEvent (resp e) maxFailureCount (deleteThrows e) ev (lookups e)
    if step.2 then step.1 ++ runBatch maxFailureCount resp deleteThrows lookups rest (e + 1)
    else step.1

/-! ## Association-list lemmas -/

theorem getProp_setProp_self (l : List (String × α)) (k : String) (v : α) :
    getProp (setProp l k v) k = some v := by
  induction l with
  | nil => simp [setProp, getProp]
  | cons hd tl ih =>
    obtain ⟨k', v'⟩ := hd
    by_cases h : k' = k
    · subst h; simp [setProp, getProp]
    · simp [setProp, getProp, h, ih]


theorem getProp_setProp_ne (l : List (String × α)) (k k' : String) (v : α)
    (h : k' ≠ k) : getProp (setProp l k v) k' = getProp l k' := by
  have hkk : k ≠ k' := fun hh => h hh.symm
  induction l with
  | nil => simp [setProp, getProp, hkk]
  | cons hd tl ih =>
    obtain ⟨k0, v0⟩ := hd
    by_cases h0 : k0 = k
    · subst h0; simp [setProp, getProp, hkk]
    · by_cases h1 : k0 = k'
      · subst h1; simp [setProp, getProp, h0]
      · simp [setProp, getProp, h0, h1, ih]

theorem setProp_ne_nil (l : List (String × α)) (k : String) (v : α) :
    setProp l k v ≠ [] := by
  cases l with
  | nil => simp [setProp]
  | cons hd tl =>
    obtain ⟨k', v'⟩ := hd
    by_cases h : k' = k <;> simp [setProp, h]

theorem hasOwn_delProp_self (l : List (String × α)) (k : String)
    (h : noDupKeys l = true) : hasOwn (delProp l k) k = false := by
  induction l with
  | nil => simp [delProp, hasOwn]
  | cons hd tl ih =>
    obtain ⟨k', v'⟩ := hd
    simp only [noDupKeys, Bool.and_eq_true, Bool.not_eq_true'] at h
    by_cases h0 : k' = k
    · subst h0; simpa [delProp] using h.1
    · simp [delProp, hasOwn, h0, ih h.2]

theorem getProp_none_of_hasOwn_false (l : List (String × α)) (k : String)
    (h : hasOwn l k = false) : getProp l k = none := by
  induction l with
  | nil => simp [getProp]
  | cons hd tl ih =>
    obtain ⟨k', v'⟩ := hd
    simp only [hasOwn, Bool.or_eq_false_iff, beq_eq_false_iff_ne] at h
    simp [getProp, h.1, ih h.2]

theorem getProp_delProp_self (l : List (String × α)) (k : String)
    (h : noDupKeys l = true) : getProp (delProp l k) k = none :=
  getProp_none_of_hasOwn_false _ _ (hasOwn_delProp_self l k h)

theorem all_setProp (l : List (String × α)) (p : String × α → Bool)
    (k : String) (v : α) (hl : l.all p = true) (hv : p (k, v) = true) :
    (setProp l k v).all p = true := by
  induction l with
  | nil => simpa [setProp]
  | cons hd tl ih =>
    obtain ⟨k', v'⟩ := hd
    simp only [List.all_cons, Bool.and_eq_true] at hl
    by_cases h0 : k' = k
    · subst h0; simp [setProp, hv, hl.2]
    · simp [setProp, h0, hl.1, ih hl.2, hv]

theorem all_delProp (l : List (String × α)) (p : String × α → Bool)
    (k : String) (hl : l.all p = true) : (delProp l k).all p = true := by
  induction l with
  | nil => simp [delProp]
  | cons hd tl ih =>
    obtain ⟨k', v'⟩ := hd
    simp only [List.all_cons, Bool.and_eq_true] at hl
    by_cases h0 : k' = k
    · subst h0; simp [delProp, hl.2]
    · simp [delProp, h0, hl.1, ih hl.2]

theorem getProp_all (l : List (String × α)) (p : String × α → Bool)
    (k : String) (v : α) (hl : l.all p = true) (hv : getProp l k = some v) :
    p (k, v) = true := by
  induction l with
  | nil => simp [getProp] at hv
  | cons hd tl ih =>
    obtain ⟨k', v'⟩ := hd
    simp only [List.all_cons, Bool.and_eq_true] at hl
    by_cases h0 : k' = k
    · subst h0
      simp only [getProp, beq_self_eq_true, if_pos, Option.some.injEq] at hv
      subst hv; exact hl.1
    · simp only [getProp, beq_eq_false_iff_ne.mpr h0, Bool.false_eq_true,
        if_false] at hv
      exact ih hl.2 hv

theorem hasOwn_setProp_ne (l : List (String × α)) (k k' : String) (v : α)
    (h : k' ≠ k) : hasOwn (setProp l k v) k' = hasOwn l k' := by
  have hkk : k ≠ k' := fun hh => h hh.symm
  induction l with
  | nil => simp [setProp, hasOwn, hkk]
  | cons hd tl ih =>
    obtain ⟨k0, v0⟩ := hd
    by_cases h0 : k0 = k
    · subst h0; simp [setProp, hasOwn, hkk]
    · simp [setProp, hasOwn, h0, ih]

theorem hasOwn_delProp_le (l : List (String × α)) (k k' : String)
    (h : hasOwn l k' = false) : hasOwn (delProp l k) k' = false := by
  induction l with
  | nil => simp [delProp, hasOwn]
  | cons hd tl ih =>
    obtain ⟨k0, v0⟩ := hd
    simp only [hasOwn, Bool.or_eq_false_iff, beq_eq_false_iff_ne] at h
    by_cases h0 : k0 = k
    · subst h0; simpa [delProp] using h.2
    · simp [delProp, h0, hasOwn, h.1, ih h.2]

theorem noDup_setProp (l : List (String × α)) (k : String) (v : α)
    (h : noDupKeys l = true) : noDupKeys (setProp l k v) = true := by
  induction l with
  | nil => simp [setProp, noDupKeys, hasOwn]
  | cons hd tl ih =>
    obtain ⟨k', v'⟩ := hd
    simp only [noDupKeys, Bool.and_eq_true, Bool.not_eq_true'] at h
    by_cases h0 : k' = k
    · subst h0
      simp [setProp, noDupKeys, h.1, h.2]
    · have hset : hasOwn (setProp tl k v) k' = false := by
        rw [hasOwn_setProp_ne tl k k' v h0]
        exact h.1
      simp [setProp, h0, noDupKeys, hset, ih h.2]

theorem noDup_delProp (l : List (String × α)) (k : String)
    (h : noDupKeys l = true) : noDupKeys (delProp l k) = true := by
  induction l with
  | nil => simp [delProp, noDupKeys]
  | cons hd tl ih =>
    obtain ⟨k', v'⟩ := hd
    simp only [noDupKeys, Bool.and_eq_true, Bool.not_eq_true'] at h
    by_cases h0 : k' = k
    · subst h0; simpa [delProp] using h.2
    · simp [delProp, h0, noDupKeys, hasOwn_delProp_le tl k k' h.1, ih h.2]

/-! ## Small helper lemmas -/

theorem list_isEmpty_false_of_ne_nil (l : List α) (h : l ≠ []) :
    l.isEmpty = false := by
  cases l with
  | nil => exact absurd rfl h
  | cons hd tl => rfl

theorem isEmpty_setProp_false (l : List (String × α)) (k : String) (v : α) :
    (setProp l k v).isEmpty = false :=
  list_isEmpty_false_of_ne_nil _ (setProp_ne_nil l k v)

theorem length_setProp_pos (l : List (String × α)) (k : String) (v : α) :
    0 < (setProp l k v).length := by
  cases hq : setProp l k v with
  | nil => exact absurd hq (setProp_ne_nil l k v)
  | cons hd tl => simp

theorem string_isEmpty_false_of_ne (s : String) (h : s ≠ "") :
    s.isEmpty = false := by
  cases hs : s.isEmpty with
  | false => rfl
  | true => exact absurd ((String.isEmpty_iff s).mp hs) h

/-! ## Claims -/

/-- **C1, counterexample.** On the empty store, `setSubscriptions`
(ReplaceRule) with a map of one valid UUID-v4 key carrying a `url` does not
fail with `NotFoundError`: the validation passes, `storage.get` yields
`undefined`, and the assignment `rules[ruleName] = subscriptions` throws a
`TypeError` instead. -/
theorem c1_counterexample :
    validateEntries
        [("2bdd4246-d838-4c0a-9a50-a7483534836e",
          ⟨some "https://example.com/hook"⟩)] = .ok ()
    ∧ setSubscriptions [] "bucket1" "rule1"
        [("2bdd4246-d838-4c0a-9a50-a7483534836e",
          ⟨some "https://example.com/hook"⟩)] = .error .typeError
    ∧ RegError.typeError ≠ RegError.notFoundError := by
  refine ⟨rfl, rfl, by decide⟩

/-- **C1 (amended).** ReplaceRule on a bucket with no record, given a map of
valid UUID keys and url-bearing subscriptions, fails — but with a generic
`TypeError` (assigning a property of `undefined`), not `NotFoundError` — and
does not create the bucket (the operation produces no new store state). -/
theorem c1_replaceRule_missing_bucket (store : Store) (b r : String)
    (entries : List (String × InSubscription))
    (hvalid : validateEntries entries = .ok ())
    (habsent : getProp store b = none) :
    setSubscriptions store b r entries = .error .typeError
    ∧ ∀ s', setSubscriptions store b r entries ≠ .ok s' := by
  have h1 : setSubscriptions store b r entries = .error .typeError := by
    simp [setSubscriptions, hvalid, habsent]
  exact ⟨h1, fun s' hh => by rw [h1] at hh; exact Except.noConfusion hh⟩

/-- Witness for `c1_replaceRule_missing_bucket` at a concrete input. -/
theorem c1_witness :
    validateEntries
        [("ce986d9c-86f3-4fb4-99d6-366acbb133c9", ⟨some "https://x.example"⟩)]
      = .ok ()
    ∧ getProp ([("other", [("r", [("i", ⟨"u"⟩)])])] : Store) "mybucket" = none
    ∧ setSubscriptions [("other", [("r", [("i", ⟨"u"⟩)])])] "mybucket" "myrule"
        [("ce986d9c-86f3-4fb4-99d6-366acbb133c9", ⟨some "https://x.example"⟩)]
      = .error .typeError :=
  ⟨rfl, rfl,
    (c1_replaceRule_missing_bucket [("other", [("r", [("i", ⟨"u"⟩)])])]
      "mybucket" "myrule"
      [("ce986d9c-86f3-4fb4-99d6-366acbb133c9", ⟨some "https://x.example"⟩)]
      rfl rfl).1⟩

/-- **C2, counterexample.** Starting from the empty store, `Create` builds a
well-formed record, but `ReplaceRule` with an empty (vacuously valid) map
completes successfully and persists the Rule `r1` mapped to an empty
subscription map — an empty Rule inside a persisted BucketRecord, violating
the claimed invariant. -/
theorem c2_counterexample :
    createSubscription (fun _ => true) [] "b1" "r1"
        (some "https://example.com/hook") "2bdd4246-d838-4c0a-9a50-a7483534836e"
      = .ok ("2bdd4246-d838-4c0a-9a50-a7483534836e",
          [("b1", [("r1", [("2bdd4246-d838-4c0a-9a50-a7483534836e",
            ⟨"https://example.com/hook"⟩)])])])
    ∧ setSubscriptions
        [("b1", [("r1", [("2bdd4246-d838-4c0a-9a50-a7483534836e",
          ⟨"https://example.com/hook"⟩)])])] "b1" "r1" []
      = .ok [("b1", [("r1", [])])]
    ∧ getProp ([("b1", [("r1", [])])] : Store) "b1" = some [("r1", [])]
    ∧ getProp ([("r1", [])] : BucketRecord) "r1" = some ([] : Rule)
    ∧ storeInvariant [("b1", [("r1", [])])] = false := by
  refine ⟨rfl, rfl, rfl, rfl, by decide⟩

/-- Helper for C2: `createSubscription` preserves the persistence
invariant — the subscription map it writes is non-empty, so its rule and
bucket record are non-empty. -/
theorem storeInvariant_create (canParse : String → Bool) (store : Store)
    (b r url id id' : String) (store' : Store)
    (hinv : storeInvariant store = true)
    (hok : createSubscription canParse store b r (some url) id
      = .ok (id', store')) :
    storeInvariant store' = true := by
  simp only [createSubscription] at hok
  by_cases h1 : url.isEmpty
  · rw [if_pos h1] at hok
    exact Except.noConfusion hok
  · rw [if_neg h1] at hok
    by_cases h2 : canParse url
    · rw [h2] at hok
      simp only [Bool.not_true, Bool.false_eq_true, if_false,
        Except.ok.injEq, Prod.mk.injEq] at hok
      obtain ⟨-, hst⟩ := hok
      subst hst
      apply all_setProp _ _ _ _ hinv
      simp only [Bool.and_eq_true, Bool.not_eq_true']
      refine ⟨isEmpty_setProp_false _ _ _, ?_⟩
      apply all_setProp
      · cases hb : getProp store b with
        | none => simp
        | some rules0 =>
          have := getProp_all store _ b rules0 hinv hb
          simp only [Bool.and_eq_true] at this
          simpa using this.2
      · simp only [Bool.not_eq_true']
        exact isEmpty_setProp_false _ _ _
    · rw [(by simp [h2] : canParse url = false)] at hok
      simp only [Bool.not_false, if_true] at hok
      exact Except.noConfusion hok

/-- Helper for C2: `deleteSubscription` preserves the persistence
invariant — an emptied Rule is removed from its record and an emptied
record is removed from the store. -/
theorem storeInvariant_delete (store : Store) (b r id : String)
    (sub : Subscription) (store' : Store)
    (hinv : storeInvariant store = true)
    (hok : deleteSubscription store b r id = .ok (sub, store')) :
    storeInvariant store' = true := by
  cases hb : getProp store b with
  | none => simp [deleteSubscription, hb] at hok
  | some rules =>
    cases hr : getProp rules r with
    | none => simp [deleteSubscription, hb, hr] at hok
    | some subs =>
      cases hi : getProp subs id with
      | none => simp [deleteSubscription, hb, hr, hi] at hok
      | some del =>
        simp only [deleteSubscription, hb, hr, hi, Except.ok.injEq,
          Prod.mk.injEq] at hok
        obtain ⟨-, hst⟩ := hok
        have hrules := getProp_all store _ b rules hinv hb
        simp only [Bool.and_eq_true, Bool.not_eq_true'] at hrules
        by_cases hs : (delProp subs id).length == 0
        · rw [if_pos hs] at hst
          by_cases hl : 0 < (delProp rules r).length
          · rw [if_pos hl] at hst
            subst hst
            apply all_setProp _ _ _ _ hinv
            simp only [Bool.and_eq_true, Bool.not_eq_true']
            constructor
            · cases hq : delProp rules r with
              | nil => rw [hq] at hl; simp at hl
              | cons => rfl
            · exact all_delProp _ _ _ hrules.2
          · rw [if_neg hl] at hst
            subst hst
            exact all_delProp _ _ _ hinv
        · rw [if_neg hs] at hst
          have hpos : 0 < (setProp rules r (delProp subs id)).length :=
            length_setProp_pos _ _ _
          rw [if_pos hpos] at hst
          subst hst
          apply all_setProp _ _ _ _ hinv
          simp only [Bool.and_eq_true, Bool.not_eq_true']
          refine ⟨isEmpty_setProp_false _ _ _, ?_⟩
          apply all_setProp _ _ _ _ hrules.2
          simp only [Bool.not_eq_true']
          apply list_isEmpty_false_of_ne_nil
          intro hq
          rw [hq] at hs
          simp at hs

/-- **C2 (amended).** After every completed `Create` and `Delete`, no
persisted BucketRecord is empty and no persisted Rule is empty: emptying a
Rule removes it from its BucketRecord and emptying a BucketRecord removes
the bucket key from the store. (`ReplaceRule` does NOT preserve this
invariant: see the counterexample — an empty replacement map persists an
empty Rule.) -/
theorem c2_invariant_create_delete (canParse : String → Bool) (store : Store)
    (hinv : storeInvariant store = true) :
    (∀ b r url id id' store',
      createSubscription canParse store b r (some url) id = .ok (id', store') →
      storeInvariant store' = true)
    ∧ (∀ b r id sub store',
      deleteSubscription store b r id = .ok (sub, store') →
      storeInvariant store' = true) :=
  ⟨fun b r url id id' store' h =>
      storeInvariant_create canParse store b r url id id' store' hinv h,
    fun b r id sub store' h =>
      storeInvariant_delete store b r id sub store' hinv h⟩

/-- Witness for `c2_invariant_create_delete` at concrete inputs. -/
theorem c2_witness :
    storeInvariant [("b1", [("r1", [("i1", ⟨"https://a"⟩)])])] = true
    ∧ storeInvariant
        [("b1", [("r1", [("i1", ⟨"https://a"⟩)]),
                 ("r2", [("i9", ⟨"https://x"⟩)])])] = true
    ∧ storeInvariant ([] : Store) = true :=
  ⟨by decide,
    (c2_invariant_create_delete (fun _ => true)
        [("b1", [("r1", [("i1", ⟨"https://a"⟩)])])] (by decide)).1
      "b1" "r2" "https://x" "i9" "i9" _ rfl,
    (c2_invariant_create_delete (fun _ => true)
        [("b1", [("r1", [("i1", ⟨"https://a"⟩)])])] (by decide)).2
      "b1" "r1" "i1" ⟨"https://a"⟩ _ rfl⟩

/-- Helper for C8: the validation loop rejects any entry list containing a
non-UUID key or a subscription lacking `url`, with the validation `Error`. -/
theorem validateEntries_error (entries : List (String × InSubscription))
    (h : ∃ p ∈ entries, matchesUUIDv4 p.1 = false ∨ p.2.url = none) :
    validateEntries entries = .error .validationError := by
  induction entries with
  | nil => simp at h
  | cons hd tl ih =>
    obtain ⟨p, hp, hbad⟩ := h
    obtain ⟨id, sub⟩ := hd
    rcases List.mem_cons.mp hp with heq | hmem
    · subst heq
      rcases hbad with huuid | hurl
      · simp [validateEntries, huuid]
      · have hurl' : sub.url = none := hurl
        by_cases huuid : matchesUUIDv4 id
        · simp [validateEntries, huuid, hurl']
        · simp [validateEntries, huuid]
    · by_cases huuid : matchesUUIDv4 id
      · by_cases hurl : sub.url.isNone
        · simp [validateEntries, huuid, hurl]
        · simp [validateEntries, huuid, hurl]
          exact ih ⟨p, hmem, hbad⟩
      · simp [validateEntries, huuid]

/-- **C8.** `setSubscriptions` (ReplaceRule) fails with the validation
error (the spec's `ValidationError`) whenever the supplied map contains an
identifier that does not match the UUID pattern or a subscription lacking a
`url` property; on rejection no new store state is produced (the validation
loop runs before any storage access, so the persisted state is untouched). -/
theorem c8_replaceRule_validation (store : Store) (b r : String)
    (entries : List (String × InSubscription))
    (h : ∃ p ∈ entries, matchesUUIDv4 p.1 = false ∨ p.2.url = none) :
    setSubscriptions store b r entries = .error .validationError
    ∧ ∀ s', setSubscriptions store b r entries ≠ .ok s' := by
  have hv := validateEntries_error entries h
  constructor
  · simp [setSubscriptions, hv]
  · intro s' hh
    rw [setSubscriptions, hv] at hh
    exact Except.noConfusion hh

/-- Witness for `c8_replaceRule_validation` at concrete inputs: one map
with a non-UUID key, one with a missing `url`. -/
theorem c8_witness :
    (∃ p ∈ [("not-a-uuid", (⟨some "https://x"⟩ : InSubscription))],
      matchesUUIDv4 p.1 = false ∨ p.2.url = none)
    ∧ setSubscriptions [("b1", [("r1", [("i1", ⟨"https://a"⟩)])])] "b1" "r1"
        [("not-a-uuid", ⟨some "https://x"⟩)] = .error .validationError
    ∧ setSubscriptions [("b1", [("r1", [("i1", ⟨"https://a"⟩)])])] "b1" "r1"
        [("ce986d9c-86f3-4fb4-99d6-366acbb133c9", ⟨none⟩)]
      = .error .validationError :=
  ⟨by decide,
    (c8_replaceRule_validation [("b1", [("r1", [("i1", ⟨"https://a"⟩)])])]
      "b1" "r1" [("not-a-uuid", ⟨some "https://x"⟩)] (by decide)).1,
    (c8_replaceRule_validation [("b1", [("r1", [("i1", ⟨"https://a"⟩)])])]
      "b1" "r1" [("ce986d9c-86f3-4fb4-99d6-366acbb133c9", ⟨none⟩)]
      (by decide)).1⟩

/-- **C9.** `getSubscriptions` has four forms and is a pure read (it is a
function of the store and returns no new store): with a falsy bucket it
returns the whole store (every bucket name mapped to its Rule map); with a
bucket only, that bucket's Rule map or `NotFoundError` when the bucket has
no record; with bucket and rule, that Rule's Subscription map or
`NotFoundError` when the rule is absent; with bucket, rule and id, the
single Subscription or `NotFoundError` when the id is absent. -/
theorem c9_get_four_forms (store : Store) (b r i : String)
    (ropt iopt : Option String)
    (hb : b ≠ "") (hr : r ≠ "") (hi : i ≠ "") :
    (getSubscriptions store none ropt iopt = .ok (.allBuckets store))
    ∧ (getProp store b = none →
        getSubscriptions store (some b) ropt iopt = .error .notFoundError)
    ∧ (∀ rules, getProp store b = some rules →
        getSubscriptions store (some b) none iopt = .ok (.bucketRules rules))
    ∧ (∀ rules, getProp store b = some rules → getProp rules r = none →
        getSubscriptions store (some b) (some r) iopt = .error .notFoundError)
    ∧ (∀ rules subs, getProp store b = some rules →
        getProp rules r = some subs →
        getSubscriptions store (some b) (some r) none = .ok (.ruleSubs subs))
    ∧ (∀ rules subs, getProp store b = some rules →
        getProp rules r = some subs → getProp subs i = none →
        getSubscriptions store (some b) (some r) (some i)
          = .error .notFoundError)
    ∧ (∀ rules subs s, getProp store b = some rules →
        getProp rules r = some subs → getProp subs i = some s →
        getSubscriptions store (some b) (some r) (some i)
          = .ok (.singleSub s)) := by
  have hb' : b.isEmpty = false := string_isEmpty_false_of_ne b hb
  have hr' : r.isEmpty = false := string_isEmpty_false_of_ne r hr
  have hi' : i.isEmpty = false := string_isEmpty_false_of_ne i hi
  refine ⟨?_, ?_, ?_, ?_, ?_, ?_, ?_⟩
  · simp [getSubscriptions, falsy]
  · intro h
    simp [getSubscriptions, falsy, hb', h]
  · intro rules h
    simp [getSubscriptions, falsy, hb', h]
  · intro rules h hrr
    simp [getSubscriptions, falsy, hb', hr', h, hrr]
  · intro rules subs h hrr
    simp [getSubscriptions, falsy, hb', hr', h, hrr]
  · intro rules subs h hrr hii
    simp [getSubscriptions, falsy, hb', hr', hi', h, hrr, hii]
  · intro rules subs s h hrr hii
    simp [getSubscriptions, falsy, hb', hr', hi', h, hrr, hii]

/-- Witness for `c9_get_four_forms` at a concrete store. -/
theorem c9_witness :
    getSubscriptions [("b1", [("r1", [("i1", ⟨"https://a"⟩)])])]
        none none none
      = .ok (.allBuckets [("b1", [("r1", [("i1", ⟨"https://a"⟩)])])])
    ∧ getSubscriptions [("b1", [("r1", [("i1", ⟨"https://a"⟩)])])]
        (some "nope") none none = .error .notFoundError
    ∧ getSubscriptions [("b1", [("r1", [("i1", ⟨"https://a"⟩)])])]
        (some "b1") (some "r1") (some "i1") = .ok (.singleSub ⟨"https://a"⟩) :=
  ⟨(c9_get_four_forms [("b1", [("r1", [("i1", ⟨"https://a"⟩)])])]
      "b1" "r1" "i1" none none (by decide) (by decide) (by decide)).1,
    (c9_get_four_forms [("b1", [("r1", [("i1", ⟨"https://a"⟩)])])]
      "nope" "r1" "i1" none none (by decide) (by decide) (by decide)).2.1 rfl,
    (c9_get_four_forms [("b1", [("r1", [("i1", ⟨"https://a"⟩)])])]
      "b1" "r1" "i1" none none (by decide) (by decide)
      (by decide)).2.2.2.2.2.2 _ _ _ rfl rfl rfl⟩

/-- **C4.** For a valid `(bucket, rule, url)` — url non-empty and parseable —
`createSubscription` succeeds, returning the freshly generated id (`uuidv4()`
is external: the generated id is a parameter assumed to match the UUID-v4
shape, which is the uuid library's contract), and reading it back with
`getSubscriptions(bucket, rule, id)` returns the subscription `{url}`
unchanged. -/
theorem c4_create_then_get (canParse : String → Bool) (store : Store)
    (b r url id : String) (hb : b ≠ "") (hr : r ≠ "")
    (hurl : url ≠ "") (hparse : canParse url = true)
    (hid : matchesUUIDv4 id = true) :
    ∃ store',
      createSubscription canParse store b r (some url) id = .ok (id, store')
      ∧ getSubscriptions store' (some b) (some r) (some id)
          = .ok (.singleSub ⟨url⟩)
      ∧ matchesUUIDv4 id = true := by
  have hurl' : url.isEmpty = false := string_isEmpty_false_of_ne url hurl
  have hid' : id ≠ "" := by
    intro h
    rw [h] at hid
    exact absurd hid (by decide)
  refine ⟨setProp store b (setProp ((getProp store b).getD []) r
      (setProp ((getProp ((getProp store b).getD []) r).getD []) id ⟨url⟩)),
    ?_, ?_, hid⟩
  · simp [createSubscription, hurl', hparse]
  · have hb' : b.isEmpty = false := string_isEmpty_false_of_ne b hb
    have hr' : r.isEmpty = false := string_isEmpty_false_of_ne r hr
    have hi' : id.isEmpty = false := string_isEmpty_false_of_ne id hid'
    simp [getSubscriptions, falsy, hb', hr', hi',
      getProp_setProp_self]

/-- Witness for `c4_create_then_get` at a concrete input. -/
theorem c4_witness :
    matchesUUIDv4 "ce986d9c-86f3-4fb4-99d6-366acbb133c9" = true
    ∧ ∃ store',
        createSubscription (fun _ => true) [] "my-bucket" "my-rule"
            (some "https://example.com/listener")
            "ce986d9c-86f3-4fb4-99d6-366acbb133c9"
          = .ok ("ce986d9c-86f3-4fb4-99d6-366acbb133c9", store')
        ∧ getSubscriptions store' (some "my-bucket") (some "my-rule")
            (some "ce986d9c-86f3-4fb4-99d6-366acbb133c9")
            = .ok (.singleSub ⟨"https://example.com/listener"⟩)
        ∧ matchesUUIDv4 "ce986d9c-86f3-4fb4-99d6-366acbb133c9" = true :=
  ⟨by decide,
    c4_create_then_get (fun _ => true) [] "my-bucket" "my-rule"
      "https://example.com/listener" "ce986d9c-86f3-4fb4-99d6-366acbb133c9"
      (by decide) (by decide) (by decide) rfl (by decide)⟩

/-- **C5.** `deleteSubscription` fails with `NotFoundError` exactly when the
hierarchical lookup bucket → rule → id fails (bucket without record, absent
rule, or absent id — in particular deleting an already-deleted id fails
again with `NotFoundError`), `NotFoundError` is its only error kind, and on
success it returns the deleted Subscription, removes the Rule when it
becomes empty, and removes the bucket key entirely (no empty record is
persisted) when the BucketRecord becomes empty. -/
theorem c5_delete_semantics (store : Store) (b r id : String)
    (hwf : wfStore store = true) :
    (deleteSubscription store b r id = .error .notFoundError
      ↔ lookupSub store b r id = none)
    ∧ (∀ e, deleteSubscription store b r id = .error e → e = .notFoundError)
    ∧ (∀ sub store', deleteSubscription store b r id = .ok (sub, store') →
        lookupSub store b r id = some sub
        ∧ lookupSub store' b r id = none
        ∧ deleteSubscription store' b r id = .error .notFoundError
        ∧ ∀ rules subs, getProp store b = some rules →
            getProp rules r = some subs →
            ((delProp subs id = [] →
                ∀ rules', getProp store' b = some rules' →
                  getProp rules' r = none)
             ∧ (delProp subs id ≠ [] →
                getProp store' b = some (setProp rules r (delProp subs id)))
             ∧ (delProp subs id = [] ∧ delProp rules r = [] →
                getProp store' b = none)
             ∧ (delProp rules r ≠ [] →
                ∃ rules', getProp store' b = some rules'))) := by
  have hwf' := hwf
  simp only [wfStore, Bool.and_eq_true] at hwf'
  obtain ⟨hnds, hall⟩ := hwf'
  cases hb : getProp store b with
  | none =>
    refine ⟨?_, ?_, ?_⟩
    · simp [deleteSubscription, lookupSub, hb]
    · intro e h
      simp only [deleteSubscription, hb, Except.error.injEq] at h
      exact h.symm
    · intro sub store' h
      simp [deleteSubscription, hb] at h
  | some rules =>
    have hrw := getProp_all store _ b rules hall hb
    simp only [Bool.and_eq_true] at hrw
    obtain ⟨hndr, hallr⟩ := hrw
    cases hr : getProp rules r with
    | none =>
      refine ⟨?_, ?_, ?_⟩
      · simp [deleteSubscription, lookupSub, hb, hr]
      · intro e h
        simp only [deleteSubscription, hb, hr, Except.error.injEq] at h
        exact h.symm
      · intro sub store' h
        simp [deleteSubscription, hb, hr] at h
    | some subs =>
      have hnsubs := getProp_all rules _ r subs hallr hr
      cases hi : getProp subs id with
      | none =>
        refine ⟨?_, ?_, ?_⟩
        · simp [deleteSubscription, lookupSub, hb, hr, hi]
        · intro e h
          simp only [deleteSubscription, hb, hr, hi, Except.error.injEq] at h
          exact h.symm
        · intro sub store' h
          simp [deleteSubscription, hb, hr, hi] at h
      | some del =>
        refine ⟨?_, ?_, ?_⟩
        · simp [deleteSubscription, lookupSub, hb, hr, hi]
        · intro e h
          simp [deleteSubscription, hb, hr, hi] at h
        · intro sub store' hok
          simp only [deleteSubscription, hb, hr, hi, Except.ok.injEq,
            Prod.mk.injEq] at hok
          obtain ⟨hsub, hst⟩ := hok
          subst hsub
          constructor
          · simp [lookupSub, hb, hr, hi]
          · by_cases hs : (delProp subs id).length == 0
            · have hsnil : delProp subs id = [] := by
                apply List.length_eq_zero.mp
                simpa using hs
              rw [if_pos hs] at hst
              by_cases hl : (delProp rules r).length > 0
              · rw [if_pos hl] at hst
                subst hst
                have hgb : getProp (setProp store b (delProp rules r)) b
                    = some (delProp rules r) := getProp_setProp_self _ _ _
                have hgr : getProp (delProp rules r) r = none :=
                  getProp_delProp_self _ _ hndr
                refine ⟨?_, ?_, ?_⟩
                · simp [lookupSub, hgb, hgr]
                · simp [deleteSubscription, hgb, hgr]
                · intro rules0 subs0 hb0 hr0
                  rw [Option.some.injEq] at hb0
                  subst hb0
                  rw [hr, Option.some.injEq] at hr0
                  subst hr0
                  refine ⟨?_, ?_, ?_, ?_⟩
                  · intro _ rules' hrl
                    rw [hgb, Option.some.injEq] at hrl
                    subst hrl
                    exact hgr
                  · intro hne
                    exact absurd hsnil hne
                  · intro hq
                    rw [hq.2] at hl
                    simp at hl
                  · intro _
                    exact ⟨delProp rules r, hgb⟩
              · rw [if_neg hl] at hst
                subst hst
                have hrnil : delProp rules r = [] := by
                  apply List.length_eq_zero.mp
                  omega
                have hgb : getProp (delProp store b) b = none :=
                  getProp_delProp_self _ _ hnds
                refine ⟨?_, ?_, ?_⟩
                · simp [lookupSub, hgb]
                · simp [deleteSubscription, hgb]
                · intro rules0 subs0 hb0 hr0
                  rw [Option.some.injEq] at hb0
                  subst hb0
                  rw [hr, Option.some.injEq] at hr0
                  subst hr0
                  refine ⟨?_, ?_, ?_, ?_⟩
                  · intro _ rules' hrl
                    rw [hgb] at hrl
                    exact Option.noConfusion hrl
                  · intro hne
                    exact absurd hsnil hne
                  · intro _
                    exact hgb
                  · intro hne
                    exact absurd hrnil hne
            · rw [if_neg hs] at hst
              have hsne : delProp subs id ≠ [] := by
                intro hq
                rw [hq] at hs
                simp at hs
              have hpos : (setProp rules r (delProp subs id)).length > 0 :=
                length_setProp_pos _ _ _
              rw [if_pos hpos] at hst
              subst hst
              have hgb : getProp
                  (setProp store b (setProp rules r (delProp subs id))) b
                  = some (setProp rules r (delProp subs id)) :=
                getProp_setProp_self _ _ _
              have hgr : getProp (setProp rules r (delProp subs id)) r
                  = some (delProp subs id) := getProp_setProp_self _ _ _
              have hgi : getProp (delProp subs id) id = none :=
                getProp_delProp_self _ _ hnsubs
              refine ⟨?_, ?_, ?_⟩
              · simp [lookupSub, hgb, hgr, hgi]
              · simp [deleteSubscription, hgb, hgr, hgi]
              · intro rules0 subs0 hb0 hr0
                rw [Option.some.injEq] at hb0
                subst hb0
                rw [hr, Option.some.injEq] at hr0
                subst hr0
                refine ⟨?_, ?_, ?_, ?_⟩
                · intro hnil
                  exact absurd hnil hsne
                · intro _
                  exact hgb
                · intro hq
                  exact absurd hq.1 hsne
                · intro _
                  exact ⟨setProp rules r (delProp subs id), hgb⟩

/-- Witness for `c5_delete_semantics` at a concrete store: deleting the
only subscription of rule `r1` removes the rule but keeps the bucket (rule
`r2` remains); a second delete of the same id fails with `NotFoundError`. -/
theorem c5_witness :
    wfStore [("b1", [("r1", [("i1", ⟨"https://a"⟩)]),
                     ("r2", [("i2", ⟨"https://b"⟩)])])] = true
    ∧ deleteSubscription
        [("b1", [("r1", [("i1", ⟨"https://a"⟩)]),
                 ("r2", [("i2", ⟨"https://b"⟩)])])] "b1" "r1" "i1"
      = .ok (⟨"https://a"⟩, [("b1", [("r2", [("i2", ⟨"https://b"⟩)])])])
    ∧ lookupSub [("b1", [("r1", [("i1", ⟨"https://a"⟩)]),
                 ("r2", [("i2", ⟨"https://b"⟩)])])] "b1" "r1" "i1"
      = some ⟨"https://a"⟩
    ∧ deleteSubscription [("b1", [("r2", [("i2", ⟨"https://b"⟩)])])]
        "b1" "r1" "i1" = .error .notFoundError :=
  ⟨by decide, rfl,
    ((c5_delete_semantics
        [("b1", [("r1", [("i1", ⟨"https://a"⟩)]),
                 ("r2", [("i2", ⟨"https://b"⟩)])])] "b1" "r1" "i1"
        (by decide)).2.2 ⟨"https://a"⟩ _ rfl).1,
    ((c5_delete_semantics
        [("b1", [("r1", [("i1", ⟨"https://a"⟩)]),
                 ("r2", [("i2", ⟨"https://b"⟩)])])] "b1" "r1" "i1"
        (by decide)).2.2 ⟨"https://a"⟩ _ rfl).2.2.1⟩

/-- Helper for C6: when no attempt succeeds, the loop runs its full
iteration count and never returns a response. -/
theorem fetchLoop_allFail_attempts (resp : Nat → FetchOutcome)
    (h : ∀ k, responseOk (resp k) = false) :
    ∀ n i d, (fetchLoop resp n i d).attempts = n
      ∧ (fetchLoop resp n i d).success = none := by
  intro n
  induction n with
  | zero => intro i d; simp [fetchLoop]
  | succ n ih =>
    intro i d
    have hrec := ih (i + 1) (if d == 0 then 1000 else d * 2)
    simp only [beq_iff_eq] at hrec
    simp [fetchLoop, h i, hrec.1, hrec.2]

/-- Helper for C6: sleeps performed from a delay of `1000 * 2 ^ j` keep
doubling. -/
theorem fetchLoop_allFail_sleeps_pow (resp : Nat → FetchOutcome)
    (h : ∀ k, responseOk (resp k) = false) :
    ∀ n j i, (fetchLoop resp n i (1000 * 2 ^ j)).sleeps
      = (List.range n).map (fun t => 1000 * 2 ^ (j + t)) := by
  intro n
  induction n with
  | zero => intro j i; simp [fetchLoop]
  | succ n ih =>
    intro j i
    have hne : 1000 * 2 ^ j ≠ 0 := by positivity
    have h2 : 1000 * 2 ^ j * 2 = 1000 * 2 ^ (j + 1) := by ring
    simp only [fetchLoop, h i, Bool.false_eq_true, if_false,
      beq_eq_false_iff_ne.mpr hne, h2, ih (j + 1) (i + 1)]
    rw [List.range_succ_eq_map]
    simp only [List.map_cons, List.map_map, Nat.add_zero]
    congr 1
    apply List.map_congr_left
    intro t _
    simp only [Function.comp_apply, Nat.succ_eq_add_one]
    have hexp : j + 1 + t = j + (t + 1) := by omega
    rw [hexp]

/-- Helper for C6: sleeps performed from the initial delay of 0 follow the
sequence 0, 1000, 2000, 4000, … . -/
theorem fetchLoop_allFail_sleeps_zero (resp : Nat → FetchOutcome)
    (h : ∀ k, responseOk (resp k) = false) :
    ∀ n i, (fetchLoop resp n i 0).sleeps = interDelays n := by
  intro n
  cases n with
  | zero => intro i; simp [fetchLoop, interDelays]
  | succ n =>
    intro i
    have h1000 : (1000 : Nat) = 1000 * 2 ^ 0 := by norm_num
    simp only [fetchLoop, h i, Bool.false_eq_true, if_false, beq_self_eq_true,
      if_true]
    rw [h1000, fetchLoop_allFail_sleeps_pow resp h n 0 (i + 1)]
    rw [interDelays, List.range_succ_eq_map]
    simp only [List.map_cons, List.map_map, if_pos rfl]
    congr 1
    apply List.map_congr_left
    intro t _
    simp [Function.comp_apply, Nat.zero_add]

/-- **C6.** For every maximum attempt count `N`, against an endpoint that
never answers 2xx (an attempt succeeds exactly when the response status is
in 200..299), `fetchWithRetry` performs exactly `N` attempts, the
inter-attempt delays follow 0, 1000, 2000, 4000, … ms (doubling after the
first 1000; `interDelays` element `j` is the wait performed after attempt
`j + 1`, the last element being the wait the code performs after the final
failure before throwing), and after the `N`-th failed attempt no further
attempt is made — the call ends in the thrown permanent failure
(`success = none`). -/
theorem c6_retry_policy (N : Nat) (resp : Nat → FetchOutcome)
    (h : ∀ k, responseOk (resp k) = false) :
    (fetchWithRetry resp (some (N : Int))).attempts = N
    ∧ (fetchWithRetry resp (some (N : Int))).success = none
    ∧ (fetchWithRetry resp (some (N : Int))).sleeps = interDelays N
    ∧ (∀ s, responseOk (some s) = true ↔ 200 ≤ s ∧ s < 300)
    ∧ responseOk none = false := by
  have hN : loopIterations (some (N : Int)) = N := by
    simp [loopIterations]
  refine ⟨?_, ?_, ?_, ?_, rfl⟩
  · rw [fetchWithRetry, hN]
    exact (fetchLoop_allFail_attempts resp h N 0 0).1
  · rw [fetchWithRetry, hN]
    exact (fetchLoop_allFail_attempts resp h N 0 0).2
  · rw [fetchWithRetry, hN]
    exact fetchLoop_allFail_sleeps_zero resp h N 0
  · intro s
    simp [responseOk, Nat.ble_eq, Nat.blt_eq]

/-- Witness for `c6_retry_policy`: an endpoint always answering HTTP 500
and `maxFailureCount = 3` gives exactly 3 attempts with delays 0 ms and
1000 ms between them, then permanent failure. -/
theorem c6_witness :
    responseOk (some 500) = false
    ∧ (fetchWithRetry (fun _ => some 500) (some 3)).attempts = 3
    ∧ (fetchWithRetry (fun _ => some 500) (some 3)).success = none
    ∧ (fetchWithRetry (fun _ => some 500) (some 3)).sleeps = interDelays 3
    ∧ interDelays 3 = [0, 1000, 2000] :=
  ⟨rfl,
    (c6_retry_policy 3 (fun _ => some 500) (fun _ => rfl)).1,
    (c6_retry_policy 3 (fun _ => some 500) (fun _ => rfl)).2.1,
    (c6_retry_policy 3 (fun _ => some 500) (fun _ => rfl)).2.2.1,
    by decide⟩

/-- **C7.** During fan-out, a `NotFoundError` from the subscriber lookup is
treated as an empty subscriber set: the event contributes only its lookup
action (no delivery attempts, no delete calls) and the batch continues with
the next event. Any other lookup failure ends the batch: the trace stops at
that event's lookup (logged, not retried), with no actions for the
remaining events. -/
theorem c7_lookup_error_handling (resp : Nat → String → Nat → FetchOutcome)
    (mfc : Option Int) (dt : Nat → String → Bool)
    (lookups : Nat → LookupOutcome) (ev : EngineEvent)
    (rest : List EngineEvent) (e : Nat) :
    (lookups e = .notFoundErr →
      runEvent (resp e) mfc (dt e) ev (lookups e)
        = ([.lookup ev.bucketName ev.matchedRuleName], true)
      ∧ runBatch mfc resp dt lookups (ev :: rest) e
        = .lookup ev.bucketName ev.matchedRuleName
          :: runBatch mfc resp dt lookups rest (e + 1))
    ∧ (lookups e = .otherError →
      runBatch mfc resp dt lookups (ev :: rest) e
        = [.lookup ev.bucketName ev.matchedRuleName]) := by
  constructor
  · intro h
    constructor
    · rw [h]
      rfl
    · simp [runBatch, runEvent, h]
  · intro h
    simp [runBatch, runEvent, h]

/-- Witness for `c7_lookup_error_handling`: a two-event batch whose first
lookup raises `NotFoundError` (processing continues) and whose second
lookup fails otherwise (processing stops). -/
theorem c7_witness :
    (fun n => if n == 0 then LookupOutcome.notFoundErr
      else LookupOutcome.otherError) 0 = LookupOutcome.notFoundErr
    ∧ runBatch (some 5) (fun _ _ _ => some 200) (fun _ _ => false)
        (fun n => if n == 0 then LookupOutcome.notFoundErr
          else LookupOutcome.otherError)
        [⟨"b1", "r1"⟩, ⟨"b2", "r2"⟩] 0
      = .lookup "b1" "r1"
        :: runBatch (some 5) (fun _ _ _ => some 200) (fun _ _ => false)
          (fun n => if n == 0 then LookupOutcome.notFoundErr
            else LookupOutcome.otherError) [⟨"b2", "r2"⟩] 1
    ∧ runBatch (some 5) (fun _ _ _ => some 200) (fun _ _ => false)
        (fun n => if n == 0 then LookupOutcome.notFoundErr
          else LookupOutcome.otherError) [⟨"b2", "r2"⟩] 1
      = [.lookup "b2" "r2"] :=
  ⟨rfl,
    ((c7_lookup_error_handling (fun _ _ _ => some 200) (some 5)
        (fun _ _ => false)
        (fun n => if n == 0 then LookupOutcome.notFoundErr
          else LookupOutcome.otherError)
        ⟨"b1", "r1"⟩ [⟨"b2", "r2"⟩] 0).1 rfl).2,
    (c7_lookup_error_handling (fun _ _ _ => some 200) (some 5)
        (fun _ _ => false)
        (fun n => if n == 0 then LookupOutcome.notFoundErr
          else LookupOutcome.otherError)
        ⟨"b2", "r2"⟩ [] 1).2 rfl⟩

/-- Helper for C3/C10: when no delete throws, every rejected subscriber is
deleted and the batch continues. -/
theorem deleteLoop_all_ok (dt : String → Bool) (b r : String) :
    ∀ ids, (∀ id ∈ ids, dt id = false) →
      deleteLoop dt b r ids = (ids.map (EngAction.deleteCall b r), true) := by
  intro ids
  induction ids with
  | nil => intro _; simp [deleteLoop]
  | cons id tl ih =>
    intro h
    have h1 : dt id = false := h id (List.mem_cons_self id tl)
    simp [deleteLoop, h1, ih fun x hx => h x (List.mem_cons_of_mem _ hx)]

/-- Helper for C3: the delete loop stops at the first throwing delete — the
call is made (and the failure logged by the outer catch) but no further
deletes run and the batch aborts. -/
theorem deleteLoop_first_throw (dt : String → Bool) (b r : String) :
    ∀ l1 id l2, (∀ x ∈ l1, dt x = false) → dt id = true →
      deleteLoop dt b r (l1 ++ id :: l2)
        = (l1.map (EngAction.deleteCall b r) ++ [.deleteCall b r id], false) := by
  intro l1
  induction l1 with
  | nil =>
    intro id l2 _ h2
    simp [deleteLoop, h2]
  | cons x tl ih =>
    intro id l2 h1 h2
    have hx : dt x = false := h1 x (List.mem_cons_self x tl)
    simp [deleteLoop, hx,
      ih id l2 (fun y hy => h1 y (List.mem_cons_of_mem _ hy)) h2]

/-- **C3, counterexample.** A two-event batch in which the sole subscriber
of event 1 exhausts its retry budget and the subsequent
`stub.deleteSubscription` call throws: the failure is logged by the outer
catch, but processing does NOT continue — the trace ends at that delete
call and event 2 is never looked up, contradicting the claim that the
remaining batch continues unaffected. -/
theorem c3_counterexample :
    runBatch (some 1) (fun _ _ _ => some 500)
        (fun e id => e == 0 && id == "id1")
        (fun _ => .found [("id1", ⟨"https://a"⟩)])
        [⟨"b1", "r1"⟩, ⟨"b2", "r2"⟩] 0
      = [.lookup "b1" "r1", .attempt "b1" "r1" "id1" 0,
         .deleteCall "b1" "r1" "id1"]
    ∧ EngAction.lookup "b2" "r2"
        ∉ runBatch (some 1) (fun _ _ _ => some 500)
            (fun e id => e == 0 && id == "id1")
            (fun _ => .found [("id1", ⟨"https://a"⟩)])
            [⟨"b1", "r1"⟩, ⟨"b2", "r2"⟩] 0 := by
  refine ⟨by decide, by decide⟩

/-- **C3 (amended).** For every subscriber whose delivery exhausts its
retry budget, the Engine calls `deleteSubscription(bucket, rule, id)`, in
subscriber order. When no such delete fails, all of them are issued and
the batch continues with the remaining events. But when a delete call
fails, the failure propagates to the batch-level catch (where it is
logged): the deletes after it are skipped and processing of the remaining
events of the batch stops. -/
theorem c3_exhausted_delete (resp : Nat → String → Nat → FetchOutcome)
    (mfc : Option Int) (dt : Nat → String → Bool)
    (lookups : Nat → LookupOutcome) (ev : EngineEvent)
    (rest : List EngineEvent) (subs : Rule)
    (hlk : lookups 0 = .found subs) :
    ((∀ id ∈ rejectedIds (resp 0) mfc subs, dt 0 id = false) →
      runBatch mfc resp dt lookups (ev :: rest) 0
        = (runEvent (resp 0) mfc (dt 0) ev (.found subs)).1
          ++ runBatch mfc resp dt lookups rest 1
      ∧ ∀ id ∈ rejectedIds (resp 0) mfc subs,
          EngAction.deleteCall ev.bucketName ev.matchedRuleName id
            ∈ runBatch mfc resp dt lookups (ev :: rest) 0)
    ∧ (∀ l1 id l2, rejectedIds (resp 0) mfc subs = l1 ++ id :: l2 →
        (∀ x ∈ l1, dt 0 x = false) → dt 0 id = true →
        runBatch mfc resp dt lookups (ev :: rest) 0
          = .lookup ev.bucketName ev.matchedRuleName
            :: ((subs.map fun p =>
                  (List.range
                    (fetchWithRetry (resp 0 p.1) mfc).attempts).map
                      fun k => EngAction.attempt ev.bucketName
                        ev.matchedRuleName p.1 k).flatten
              ++ (l1.map
                    (EngAction.deleteCall ev.bucketName ev.matchedRuleName)
                  ++ [.deleteCall ev.bucketName ev.matchedRuleName id]))) := by
  constructor
  · intro hnone
    have hdl := deleteLoop_all_ok (dt 0) ev.bucketName ev.matchedRuleName _
      hnone
    have heq : runBatch mfc resp dt lookups (ev :: rest) 0
        = (runEvent (resp 0) mfc (dt 0) ev (.found subs)).1
          ++ runBatch mfc resp dt lookups rest 1 := by
      simp [runBatch, hlk, runEvent, hdl]
    refine ⟨heq, ?_⟩
    intro id hid
    rw [heq]
    simp only [runEvent, hdl]
    exact List.mem_append_left _ (List.mem_cons_of_mem _
      (List.mem_append_right _ (List.mem_map_of_mem _ hid)))
  · intro l1 id l2 hsplit h1 h2
    have hdl := deleteLoop_first_throw (dt 0) ev.bucketName
      ev.matchedRuleName l1 id l2 h1 h2
    simp [runBatch, hlk, runEvent, hsplit, hdl]

/-- Witness for `c3_exhausted_delete`: two rejected subscribers, the first
delete succeeds, the second throws — the trace stops right there and the
second event is never processed. -/
theorem c3_witness :
    (fun _ : Nat => LookupOutcome.found
      [("idA", ⟨"https://a"⟩), ("idB", ⟨"https://b"⟩)]) 0
      = LookupOutcome.found [("idA", ⟨"https://a"⟩), ("idB", ⟨"https://b"⟩)]
    ∧ runBatch (some 1) (fun _ _ _ => none) (fun _ x => x == "idB")
        (fun _ => .found [("idA", ⟨"https://a"⟩), ("idB", ⟨"https://b"⟩)])
        [⟨"bx", "rx"⟩, ⟨"by", "ry"⟩] 0
      = [.lookup "bx" "rx", .attempt "bx" "rx" "idA" 0,
         .attempt "bx" "rx" "idB" 0, .deleteCall "bx" "rx" "idA",
         .deleteCall "bx" "rx" "idB"] :=
  ⟨rfl, by
    have h := (c3_exhausted_delete (fun _ _ _ => none) (some 1)
      (fun _ x => x == "idB")
      (fun _ => .found [("idA", ⟨"https://a"⟩), ("idB", ⟨"https://b"⟩)])
      ⟨"bx", "rx"⟩ [⟨"by", "ry"⟩]
      [("idA", ⟨"https://a"⟩), ("idB", ⟨"https://b"⟩)] rfl).2
      ["idA"] "idB" [] rfl (by decide) rfl
    simpa using h⟩

/-- Helper for C10: a non-positive (or `NaN`) loop bound makes
`fetchWithRetry` perform zero attempts and reject immediately. -/
theorem fetchWithRetry_zero (mfc : Option Int) (hm : loopIterations mfc = 0)
    (rr : Nat → FetchOutcome) :
    fetchWithRetry rr mfc = ⟨0, [], none⟩ := by
  rw [fetchWithRetry, hm]
  rfl

/-- Helper for C10: with a zero budget every subscriber's delivery settles
rejected. -/
theorem rejectedIds_zero (mfc : Option Int) (hm : loopIterations mfc = 0)
    (resp1 : String → Nat → FetchOutcome) (subs : Rule) :
    rejectedIds resp1 mfc subs = subs.map (·.1) := by
  simp [rejectedIds, fetchWithRetry_zero mfc hm]

/-- Helper for C10: with a zero budget (and lookups finding subscribers,
deletes succeeding) the engine performs no HTTP attempt at all. -/
theorem runBatch_zero_no_attempts (mfc : Option Int)
    (resp : Nat → String → Nat → FetchOutcome) (dt : Nat → String → Bool)
    (lookups : Nat → LookupOutcome) (subsOf : Nat → Rule)
    (hm : loopIterations mfc = 0)
    (hl : ∀ e, lookups e = .found (subsOf e))
    (hdt : ∀ e id, dt e id = false) :
    ∀ (evs : List EngineEvent) (start : Nat) (b r id : String) (k : Nat),
      EngAction.attempt b r id k ∉ runBatch mfc resp dt lookups evs start := by
  intro evs
  induction evs with
  | nil => intro start b r id k; simp [runBatch]
  | cons ev rest ih =>
    intro start b r id k
    have hdl := deleteLoop_all_ok (dt start) ev.bucketName ev.matchedRuleName
      (rejectedIds (resp start) mfc (subsOf start))
      (fun x _ => hdt start x)
    simp only [runBatch, hl start, runEvent, hdl,
      fetchWithRetry_zero mfc hm, List.range_zero, List.map_nil]
    simp [List.mem_cons, List.mem_append, List.mem_map, ih]

/-- Helper for C10: with a zero budget the engine issues a delete call for
every subscriber of every event of the batch. -/
theorem runBatch_zero_deletes (mfc : Option Int)
    (resp : Nat → String → Nat → FetchOutcome) (dt : Nat → String → Bool)
    (lookups : Nat → LookupOutcome) (subsOf : Nat → Rule)
    (hm : loopIterations mfc = 0)
    (hl : ∀ e, lookups e = .found (subsOf e))
    (hdt : ∀ e id, dt e id = false) :
    ∀ (evs : List EngineEvent) (start : Nat) (i : Fin evs.length)
      (p : String × Subscription), p ∈ subsOf (start + i.val) →
      EngAction.deleteCall (evs.get i).bucketName (evs.get i).matchedRuleName
          p.1
        ∈ runBatch mfc resp dt lookups evs start := by
  intro evs
  induction evs with
  | nil => intro start i; exact absurd i.2 (by simp)
  | cons ev rest ih =>
    intro start i p hp
    have hdl := deleteLoop_all_ok (dt start) ev.bucketName ev.matchedRuleName
      (rejectedIds (resp start) mfc (subsOf start))
      (fun x _ => hdt start x)
    obtain ⟨iv, hlt⟩ := i
    cases iv with
    | zero =>
      rw [Nat.add_zero] at hp
      simp only [runBatch, hl start, runEvent, hdl, List.get]
      have hmem : EngAction.deleteCall ev.bucketName ev.matchedRuleName p.1
          ∈ (rejectedIds (resp start) mfc (subsOf start)).map
              (EngAction.deleteCall ev.bucketName ev.matchedRuleName) := by
        rw [rejectedIds_zero mfc hm]
        rw [List.map_map]
        exact List.mem_map_of_mem _ hp
      exact List.mem_append_left _ (List.mem_cons_of_mem _
        (List.mem_append_right _ hmem))
    | succ j =>
      have hj : j < rest.length := by simpa using hlt
      have hp' : p ∈ subsOf ((start + 1) + j) := by
        have harith : start + (j + 1) = (start + 1) + j := by omega
        rw [harith] at hp
        exact hp
      have hrec := ih (start + 1) ⟨j, hj⟩ p hp'
      simp only [runBatch, hl start, runEvent, hdl, List.get]
      exact List.mem_append_right _ hrec

/-- **C10.** When the configured maximum attempt count is not a positive
number (`MAX_FAILURE_COUNT` parsing to `NaN` — every comparison with which
is false — or a non-positive value), the retried delivery performs zero
HTTP attempts and immediately rejects; consequently, for every event whose
lookup finds subscribers, the Engine issues a delete call for every one of
its subscribers without a single delivery attempt. -/
theorem c10_zero_budget (mfc : Option Int)
    (resp : Nat → String → Nat → FetchOutcome) (dt : Nat → String → Bool)
    (lookups : Nat → LookupOutcome) (subsOf : Nat → Rule)
    (evs : List EngineEvent) (start : Nat)
    (hm : loopIterations mfc = 0)
    (hl : ∀ e, lookups e = .found (subsOf e))
    (hdt : ∀ e id, dt e id = false) :
    (∀ rr, fetchWithRetry rr mfc = ⟨0, [], none⟩)
    ∧ (∀ b r id k,
        EngAction.attempt b r id k ∉ runBatch mfc resp dt lookups evs start)
    ∧ (∀ (i : Fin evs.length) (p : String × Subscription),
        p ∈ subsOf (start + i.val) →
        EngAction.deleteCall (evs.get i).bucketName
            (evs.get i).matchedRuleName p.1
          ∈ runBatch mfc resp dt lookups evs start) :=
  ⟨fetchWithRetry_zero mfc hm,
    fun b r id k =>
      runBatch_zero_no_attempts mfc resp dt lookups subsOf hm hl hdt
        evs start b r id k,
    fun i p hp =>
      runBatch_zero_deletes mfc resp dt lookups subsOf hm hl hdt
        evs start i p hp⟩

/-- Witness for `c10_zero_budget`: `MAX_FAILURE_COUNT` parsing to `NaN`
(`none`), one event with one subscriber — no attempt ever, subscriber
deleted. -/
theorem c10_witness :
    loopIterations none = 0
    ∧ fetchWithRetry (fun _ => some 500) none = ⟨0, [], none⟩
    ∧ EngAction.deleteCall "b" "r" "id1"
        ∈ runBatch none (fun _ _ _ => some 500) (fun _ _ => false)
            (fun _ => .found [("id1", ⟨"https://e"⟩)]) [⟨"b", "r"⟩] 0
    ∧ EngAction.attempt "b" "r" "id1" 0
        ∉ runBatch none (fun _ _ _ => some 500) (fun _ _ => false)
            (fun _ => .found [("id1", ⟨"https://e"⟩)]) [⟨"b", "r"⟩] 0 :=
  ⟨rfl,
    (c10_zero_budget none (fun _ _ _ => some 500) (fun _ _ => false)
      (fun _ => .found [("id1", ⟨"https://e"⟩)])
      (fun _ => [("id1", ⟨"https://e"⟩)]) [⟨"b", "r"⟩] 0 rfl
      (fun _ => rfl) (fun _ _ => rfl)).1 (fun _ => some 500),
    by
      have h := (c10_zero_budget none (fun _ _ _ => some 500)
        (fun _ _ => false) (fun _ => .found [("id1", ⟨"https://e"⟩)])
        (fun _ => [("id1", ⟨"https://e"⟩)]) [⟨"b", "r"⟩] 0 rfl
        (fun _ => rfl) (fun _ _ => rfl)).2.2 ⟨0, by decide⟩
        ("id1", ⟨"https://e"⟩) (by decide)
      simpa using h,
    (c10_zero_budget none (fun _ _ _ => some 500) (fun _ _ => false)
      (fun _ => .found [("id1", ⟨"https://e"⟩)])
      (fun _ => [("id1", ⟨"https://e"⟩)]) [⟨"b", "r"⟩] 0 rfl
      (fun _ => rfl) (fun _ _ => rfl)).2.1 "b" "r" "id1" 0⟩

end B2Broker
